import Mathlib

/-!
Verification of the external JWT authentication middleware
(`src/packages/cli/src/middlewares/externalJWTAuth.ts`).

The middleware is embedded shallowly: the decoded JWT payload is a list of
named JSON values, configuration is a record of the eight strings read from
`config.getEnv`, and the per-request handler is a function from a request
and an abstract world (JWKS contents, decode results, signature checks) to
the ordered list of response actions it attempts plus the number of remote
key-set fetches it performs.  External collaborators (`jsonwebtoken`'s
`verify`, the `jwks-rsa` client) are modelled from the spec where noted.
-/

/-- A JSON value, as found in a decoded JWT payload. -/
inductive JsonValue where
  | null
  | bool (b : Bool)
  | num (n : Int)
  | str (s : String)
  | arr (xs : List JsonValue)
  | obj (fields : List (String × JsonValue))

/-- JavaScript `Object.entries`: on an object it returns the named fields, on a
string it returns index/character pairs, on an array index/element pairs, on a
number or boolean the empty list, and on `null` it throws a `TypeError`
(modelled as `none`). -/
def objectEntries : JsonValue → Option (List (String × JsonValue))
  | JsonValue.null => none
  | JsonValue.bool _ => some []
  | JsonValue.num _ => some []
  | JsonValue.str s =>
      some (s.toList.enum.map (fun p => (toString p.1, JsonValue.str (String.mk [p.2]))))
  | JsonValue.arr xs => some (xs.enum.map (fun p => (toString p.1, p.2)))
  | JsonValue.obj fields => some fields

/-- JavaScript strict equality `v === s` between a JSON value and a string:
true exactly when `v` is that string. -/
def jsStrEq (v : JsonValue) (s : String) : Bool :=
  match v with
  | JsonValue.str t => t = s
  | _ => false

/-- Whether a JSON value is a mapping (a JSON object). -/
def isMapping : JsonValue → Bool
  | JsonValue.obj _ => true
  | _ => false

/-- The outer loop of `isTenantAllowed`: walk the entries of the decoded
token; at an entry named `jwtNamespace`, enumerate `Object.entries` of its
value (throwing, `none`, when the value is `null`) and return `some true` on
a pair equal to `(jwtAllowedTenantKey, jwtAllowedTenant)`; otherwise keep
scanning, ending in `some false`. -/
def tenantScan (jwtNamespace jwtAllowedTenantKey jwtAllowedTenant : String) :
    List (String × JsonValue) → Option Bool
  | [] => some false
  | (k, v) :: rest =>
      if k = jwtNamespace then
        match objectEntries v with
        | none => none
        | some es =>
            if es.any (fun p => decide (p.1 = jwtAllowedTenantKey) && jsStrEq p.2 jwtAllowedTenant) then
              some true
            else tenantScan jwtNamespace jwtAllowedTenantKey jwtAllowedTenant rest
      else tenantScan jwtNamespace jwtAllowedTenantKey jwtAllowedTenant rest

/-- The middleware's `isTenantAllowed(decodedToken)`: true when any of the
three tenant-check configuration values is the empty string, otherwise the
scan over `Object.entries(decodedToken)`.  `none` models the `TypeError`
thrown when a namespace-named entry has a `null` value. -/
def isTenantAllowed (jwtNamespace jwtAllowedTenantKey jwtAllowedTenant : String)
    (decodedToken : List (String × JsonValue)) : Option Bool :=
  if jwtNamespace = "" ∨ jwtAllowedTenantKey = "" ∨ jwtAllowedTenant = "" then some true
  else tenantScan jwtNamespace jwtAllowedTenantKey jwtAllowedTenant decodedToken

/-- Whether one entry of the decoded token makes the tenant check succeed:
its name is the namespace key and `Object.entries` of its value contains a
pair equal to the configured tenant key and allowed tenant. -/
def entryMatches (jwtNamespace jwtAllowedTenantKey jwtAllowedTenant : String)
    (e : String × JsonValue) : Bool :=
  decide (e.1 = jwtNamespace) &&
    (match objectEntries e.2 with
     | none => false
     | some es =>
         es.any (fun p => decide (p.1 = jwtAllowedTenantKey) && jsStrEq p.2 jwtAllowedTenant))

/-- Remove the first occurrence of `pat` from a list of characters, leaving
the list unchanged when `pat` does not occur: the behaviour of JavaScript
`String.prototype.replace` with a string pattern and an empty replacement. -/
def dropFirstOcc (pat : List Char) : List Char → List Char
  | [] => []
  | c :: rest =>
      if pat.isPrefixOf (c :: rest) then (c :: rest).drop pat.length
      else c :: dropFirstOcc pat rest

/-- JavaScript `token.replace(pat, "")` for a string pattern: only the first
occurrence is removed, wherever it sits in the string. -/
def jsReplaceFirst (s pat : String) : String :=
  String.mk (dropFirstOcc pat.toList s.toList)

/-- JavaScript `s.startsWith(pat)`. -/
def jsStartsWith (s pat : String) : Bool :=
  pat.toList.isPrefixOf s.toList

/-- JavaScript `s.trimStart()`: leading whitespace removed. -/
def jsTrimStart (s : String) : String :=
  String.mk (s.toList.dropWhile Char.isWhitespace)

/-- Drop the first `n` characters of a string. -/
def jsDropChars (s : String) (n : Nat) : String :=
  String.mk (s.toList.drop n)

/-- The middleware's prefix-stripping step (lines 66-68 of the source):
when the configured prefix is non-empty and the token starts with it, the
token becomes `token.replace(prefix + " ", "").trimStart()`; otherwise the
token is left unchanged. -/
def stripPrefixStep (jwtHeaderValuePrefix token : String) : String :=
  if jwtHeaderValuePrefix ≠ "" ∧ jsStartsWith token jwtHeaderValuePrefix = true then
    jsTrimStart (jsReplaceFirst token (jwtHeaderValuePrefix ++ " "))
  else token

/-- Modelled from the spec: `stripPrefix(token, prefix)` as the claim words
it — if the prefix is non-empty and the token starts with it, remove the
leading prefix and exactly one following separator and trim leading
whitespace from the remainder (with a space separator this equals dropping
the prefix then trimming); otherwise return the token unchanged. -/
def stripPrefixSpec (pfx token : String) : String :=
  if pfx ≠ "" ∧ jsStartsWith token pfx = true then
    jsTrimStart (jsDropChars token pfx.length)
  else token

/-- The eight configuration values the middleware reads from
`config.getEnv` at setup (empty string = unset). -/
structure Config where
  jwtAuthHeader : String
  jwtAuthCookie : String
  jwksUri : String
  jwtHeaderValuePrefix : String
  jwtIssuer : String
  jwtNamespace : String
  jwtAllowedTenantKey : String
  jwtAllowedTenant : String

/-- The parts of an Express request the handler consults: the URL (for the
exemption match), the headers and the parsed cookies. -/
structure Request where
  url : String
  headers : List (String × String)
  cookies : List (String × String)

/-- What a token means to the verifying world: the `kid` of its header, the
state of its expiration claim, its issuer claim and its decoded payload. -/
structure TokenMeta where
  kid : Option String
  expired : Bool
  issuer : Option String
  payload : List (String × JsonValue)

/-- The environment of a request: how tokens decode, which signing keys the
remote JWKS endpoint serves for each `kid`, and which signatures check out. -/
structure World where
  decode : String → Option TokenMeta
  keys : String → Option String
  sigOk : String → String → Bool

/-- Token extraction (lines 57-60): `jwtAuthHeader ? req.header(jwtAuthHeader)
: req.cookies?.[jwtAuthCookie]` — the header when a header name is configured
(a non-empty string is truthy), otherwise the cookie. -/
def extractToken (cfg : Config) (req : Request) : Option String :=
  if cfg.jwtAuthHeader ≠ "" then req.headers.lookup cfg.jwtAuthHeader
  else req.cookies.lookup cfg.jwtAuthCookie

/-- A response-level action the handler attempts, in order: sending a 401
with a reason, calling `next()`, throwing the already-sent response out of
the middleware (the missing-`kid` path), or throwing a `TypeError` from the
tenant check. -/
inductive RespAction where
  | respond401 (reason : String)
  | callNext
  | throwOut
  | threwTypeError
deriving DecidableEq

/-- One invocation of the key callback handed to `jwt.verify`: either with an
error or with an optional public key. -/
inductive CbCall where
  | err (msg : String)
  | key (k : Option String)
deriving DecidableEq

/-- The body of `getKey` once the signing-key lookup has completed (lines
75-78): `if (error) callbackFn(error); callbackFn(null, key?.getPublicKey())`
— on an error the callback is invoked twice, first with the error and then
with an undefined key, because the error branch does not return. -/
def getKeyCalls : Except String String → List CbCall
  | Except.error e => [CbCall.err e, CbCall.key none]
  | Except.ok k => [CbCall.key (some k)]

/-- The options record passed to `jwt.verify`. -/
structure VerifyOptions where
  issuer : Option String
  ignoreExpiration : Bool

/-- The verification options built per request (lines 81-84): the issuer is
forwarded only when configured non-empty, and `ignoreExpiration` is the
literal `false`. -/
def jwtVerifyOptionsOf (cfg : Config) : VerifyOptions :=
  { issuer := if cfg.jwtIssuer ≠ "" then some cfg.jwtIssuer else none
    ignoreExpiration := false }

/-- Modelled from the spec: `verify`'s claim checks once a key is in hand —
bad signatures are rejected, an expired token is rejected unless expiration
is ignored, and a configured issuer must equal the token's issuer claim; on
success the decoded claim set is returned. -/
def verifyChecks (opts : VerifyOptions) (sigOk : Bool) (meta : TokenMeta) :
    Except String (List (String × JsonValue)) :=
  if sigOk = false then Except.error "invalid signature"
  else if meta.expired && !opts.ignoreExpiration then Except.error "jwt expired"
  else
    match opts.issuer with
    | some iss =>
        if meta.issuer = some iss then Except.ok meta.payload
        else Except.error "jwt issuer invalid"
    | none => Except.ok meta.payload

/-- A character allowed in a base64url segment of a JWS. -/
def base64urlChar (c : Char) : Bool := c.isAlphanum || c = '-' || c = '_'

/-- Modelled from the spec: a structurally valid JWS compact serialization —
three dot-separated base64url segments; any other string fails verification
as malformed before any key work happens. -/
def jwsShape (token : String) : Bool :=
  token.toList.all (fun c => base64urlChar c || c = '.') &&
    decide (token.toList.count '.' = 2)

/-- The verify callback of the middleware (lines 86-94), run on the outcome
of one verification: a failed verification responds 401
"Invalid token: <detail>"; a successful one runs the tenant check, whose
thrown `TypeError` (null-valued namespace claim) escapes, whose false
responds 401 "Tenant not allowed", and whose true calls `next()`. -/
def verifyWithKey (cfg : Config) (w : World) (token : String) (meta : TokenMeta)
    (k : String) : List RespAction :=
  match verifyChecks (jwtVerifyOptionsOf cfg) (w.sigOk token k) meta with
  | Except.error e => [RespAction.respond401 ("Invalid token: " ++ e)]
  | Except.ok payload =>
      match isTenantAllowed cfg.jwtNamespace cfg.jwtAllowedTenantKey
          cfg.jwtAllowedTenant payload with
      | none => [RespAction.threwTypeError]
      | some true => [RespAction.callNext]
      | some false => [RespAction.respond401 "Tenant not allowed"]

/-- Modelled from the spec: jsonwebtoken's reaction to each invocation of the
key callback — an error invocation reports the wrapped key-callback error, an
undefined key reports "secret or public key must be provided", and a real key
proceeds into verification.  Every invocation drives one run of the verify
callback, so a doubled invocation produces two response attempts. -/
def keyCallbackActions (withKey : String → List RespAction) : List CbCall → List RespAction
  | [] => []
  | CbCall.err e :: rest =>
      RespAction.respond401 ("Invalid token: error in secret or public key callback: " ++ e)
        :: keyCallbackActions withKey rest
  | CbCall.key none :: rest =>
      RespAction.respond401 "Invalid token: secret or public key must be provided"
        :: keyCallbackActions withKey rest
  | CbCall.key (some k) :: rest => withKey k ++ keyCallbackActions withKey rest

/-- The observable result of one handler run: the ordered response-level
actions it attempts, and how many remote key-set fetches it performs. -/
structure RunResult where
  actions : List RespAction
  fetches : Nat
deriving DecidableEq

/-- Modelled from the spec: `jwt.verify(token, getKey, jwtVerifyOptions, cb)`
driving the middleware's `getKey`.  An empty or structurally invalid token
fails before any key work; a token header without a `kid` makes `getKey`
send a 401 and throw it (line 73); otherwise the JWKS client — constructed
fresh for this request on line 70, so with an empty cache — fetches the key
set exactly once and `getKey`'s callback invocations drive verification. -/
def verifyActions (cfg : Config) (w : World) (token : String) : RunResult :=
  if token = "" then
    { actions := [RespAction.respond401 "Invalid token: jwt must be provided"], fetches := 0 }
  else
    match (if jwsShape token then w.decode token else none) with
    | none =>
        { actions := [RespAction.respond401 "Invalid token: jwt malformed"], fetches := 0 }
    | some meta =>
        match meta.kid with
        | none =>
            { actions := [RespAction.respond401 "No JWT key found", RespAction.throwOut]
              fetches := 0 }
        | some kid =>
            { actions :=
                keyCallbackActions (verifyWithKey cfg w token meta)
                  (getKeyCalls
                    (match w.keys kid with
                     | some k => Except.ok k
                     | none =>
                         Except.error ("Unable to find a signing key that matches " ++ kid)))
              fetches := 1 }

/-- One run of the request handler installed by `setupExternalJWTAuth`
(lines 52-95): exempt URLs pass straight through; otherwise the token is
extracted, rejected as missing when absent or empty, stripped of the
configured prefix, and verified. -/
def handleRequest (cfg : Config) (w : World) (authIgnore : String → Bool)
    (req : Request) : RunResult :=
  if authIgnore req.url then { actions := [RespAction.callNext], fetches := 0 }
  else
    match extractToken cfg req with
    | none => { actions := [RespAction.respond401 "Missing token"], fetches := 0 }
    | some tok0 =>
        if tok0 = "" then { actions := [RespAction.respond401 "Missing token"], fetches := 0 }
        else verifyActions cfg w (stripPrefixStep cfg.jwtHeaderValuePrefix tok0)

/-- The token string that reaches `jwt.verify` for a request (empty when the
run rejects before verification). -/
def pipelineToken (cfg : Config) (req : Request) : String :=
  match extractToken cfg req with
  | none => ""
  | some tok0 =>
      if tok0 = "" then "" else stripPrefixStep cfg.jwtHeaderValuePrefix tok0

/-- Total number of remote key-set fetches over a sequence of requests
handled one after the other in one process. -/
def processFetches (cfg : Config) (w : World) (authIgnore : String → Bool)
    (reqs : List Request) : Nat :=
  (reqs.map (fun r => (handleRequest cfg w authIgnore r).fetches)).sum

/-- Whether a run's first attempted action is a 401 rejection response. -/
def firstIsRejection (r : RunResult) : Bool :=
  match r.actions with
  | RespAction.respond401 _ :: _ => true
  | _ => false

/-- A configuration fixture: header-sourced token, no prefix, no issuer, no
tenant check. -/
def cfgBase : Config :=
  { jwtAuthHeader := "x-jwt", jwtAuthCookie := "", jwksUri := "http://jwks.example"
    jwtHeaderValuePrefix := "", jwtIssuer := "", jwtNamespace := ""
    jwtAllowedTenantKey := "", jwtAllowedTenant := "" }

/-- A world fixture serving one signing key (kid1) and decoding the one
well-formed token "aaa.bbb.ccc" to an unexpired claim set naming that kid. -/
def worldBase : World :=
  { decode := fun t =>
      if t = "aaa.bbb.ccc" then
        some { kid := some "kid1", expired := false, issuer := none, payload := [] }
      else none
    keys := fun kid => if kid = "kid1" then some "PUBKEY" else none
    sigOk := fun _ _ => true }

/-- A request fixture carrying the well-formed token in the configured
header. -/
def reqBase : Request :=
  { url := "/rest/workflows", headers := [("x-jwt", "aaa.bbb.ccc")], cookies := [] }

/-- A world whose JWKS endpoint serves no key at all. -/
def worldNoKey : World :=
  { decode := fun t =>
      if t = "aaa.bbb.ccc" then
        some { kid := some "kid1", expired := false, issuer := none, payload := [] }
      else none
    keys := fun _ => none
    sigOk := fun _ _ => true }

/-- A world decoding the token to a header without a `kid`. -/
def worldNoKid : World :=
  { decode := fun t =>
      if t = "aaa.bbb.ccc" then
        some { kid := none, expired := false, issuer := none, payload := [] }
      else none
    keys := fun _ => none
    sigOk := fun _ _ => true }

/-- A world decoding the token as already expired. -/
def worldExpired : World :=
  { decode := fun t =>
      if t = "aaa.bbb.ccc" then
        some { kid := some "kid1", expired := true, issuer := none, payload := [] }
      else none
    keys := fun kid => if kid = "kid1" then some "PUBKEY" else none
    sigOk := fun _ _ => true }

/-- Every entry of a token whose names all differ from the namespace key
fails `entryMatches`, so `List.any` over it is false. -/
theorem any_entryMatches_eq_false (jwtNamespace tk allowed : String)
    (tok : List (String × JsonValue)) (h : ∀ e ∈ tok, e.1 ≠ jwtNamespace) :
    tok.any (entryMatches jwtNamespace tk allowed) = false := by
  rw [List.any_eq_false]
  intro e he
  simp [entryMatches, h e he]

/-- When no entry is named after the namespace key, the scan runs off the end
and returns `some false`. -/
theorem tenantScan_no_ns (jwtNamespace tk allowed : String) :
    ∀ tok : List (String × JsonValue), (∀ e ∈ tok, e.1 ≠ jwtNamespace) →
      tenantScan jwtNamespace tk allowed tok = some false
  | [], _ => rfl
  | (k, v) :: rest, h => by
      have hk : k ≠ jwtNamespace := h (k, v) (List.mem_cons_self _ _)
      rw [tenantScan, if_neg hk]
      exact tenantScan_no_ns jwtNamespace tk allowed rest
        (fun e he => h e (List.mem_cons_of_mem _ he))

/-- For a token whose top-level names are distinct, the scan succeeds exactly
when some entry matches. -/
theorem tenantScan_some_true_iff (jwtNamespace tk allowed : String) :
    ∀ tok : List (String × JsonValue), (tok.map Prod.fst).Nodup →
      (tenantScan jwtNamespace tk allowed tok = some true ↔
        tok.any (entryMatches jwtNamespace tk allowed) = true)
  | [], _ => by simp [tenantScan]
  | (k, v) :: rest, hnd => by
      rw [List.map_cons, List.nodup_cons] at hnd
      obtain ⟨hk, hrest⟩ := hnd
      by_cases hkn : k = jwtNamespace
      · subst hkn
        have hnone : ∀ e ∈ rest, e.1 ≠ k := by
          intro e he hek
          have hmem : e.1 ∈ List.map Prod.fst rest := List.mem_map_of_mem Prod.fst he
          rw [hek] at hmem
          exact hk hmem
        cases hv : objectEntries v with
        | none =>
            rw [tenantScan, if_pos rfl, hv]
            simp [entryMatches, hv, any_entryMatches_eq_false k tk allowed rest hnone]
        | some es =>
            by_cases hm :
                es.any (fun p => decide (p.1 = tk) && jsStrEq p.2 allowed) = true
            · simp [tenantScan, hv, hm, entryMatches]
            · have hscan : tenantScan k tk allowed ((k, v) :: rest) =
                  tenantScan k tk allowed rest := by
                rw [tenantScan, if_pos rfl, hv]
                simp [hm]
              rw [hscan, tenantScan_no_ns k tk allowed rest hnone]
              have hm2 : (es.any fun p => decide (p.1 = tk) && jsStrEq p.2 allowed) = false := by
                cases h2 : es.any fun p => decide (p.1 = tk) && jsStrEq p.2 allowed
                · rfl
                · exact absurd h2 hm
              simp [entryMatches, hv, hm2,
                any_entryMatches_eq_false k tk allowed rest hnone]
      · rw [tenantScan, if_neg hkn]
        rw [tenantScan_some_true_iff jwtNamespace tk allowed rest hrest]
        simp [entryMatches, hkn]

/-- C1: the claim that `isTenantAllowed` returns true iff the namespace claim
is a mapping containing the configured tenant entry, and returns false when
the namespace claim's value is not a mapping, is refuted: a namespace claim
whose value is the plain string "x" (not a mapping) is accepted when the
configured tenant key is "0" and the allowed tenant is "x", because
JavaScript's `Object.entries` enumerates a string as index/character pairs. -/
theorem c1_counterexample :
    isMapping (JsonValue.str "x") = false ∧
    isTenantAllowed "a" "0" "x" [("a", JsonValue.str "x")] = some true := by
  constructor
  · rfl
  · decide

/-- C1 (amended): with all three tenant-check configuration values set and a
claim set with distinct top-level names (as JSON decoding guarantees),
`isTenantAllowed` returns `some true` iff some entry is named after the
namespace key and JavaScript `Object.entries` of its value — the fields of a
mapping, the index/character pairs of a string, the index/element pairs of an
array — contains a pair equal to the tenant key and allowed tenant; and when
no entry carries the namespace name the result is `some false`. -/
theorem c1_tenant_check_amended (jwtNamespace tk allowed : String)
    (tok : List (String × JsonValue))
    (hns : jwtNamespace ≠ "") (htk : tk ≠ "") (ha : allowed ≠ "")
    (hnodup : (tok.map Prod.fst).Nodup) :
    (isTenantAllowed jwtNamespace tk allowed tok = some true ↔
      tok.any (entryMatches jwtNamespace tk allowed) = true) ∧
    ((∀ e ∈ tok, e.1 ≠ jwtNamespace) →
      isTenantAllowed jwtNamespace tk allowed tok = some false) := by
  unfold isTenantAllowed
  rw [if_neg (by simp [hns, htk, ha])]
  exact ⟨tenantScan_some_true_iff jwtNamespace tk allowed tok hnodup,
    fun h => tenantScan_no_ns jwtNamespace tk allowed tok h⟩

/-- C1 (witness): the amended characterization evaluated on a concrete claim
set carrying a mapping-valued namespace claim. -/
theorem c1_witness :
    isTenantAllowed "org" "tenant" "acme"
      [("org", JsonValue.obj [("tenant", JsonValue.str "acme")])] = some true :=
  ((c1_tenant_check_amended "org" "tenant" "acme"
      [("org", JsonValue.obj [("tenant", JsonValue.str "acme")])]
      (by decide) (by decide) (by decide) (by simp)).1).mpr (by decide)

/-- Removing the first occurrence of a pattern that sits at the head of the
list just drops the pattern's length. -/
theorem dropFirstOcc_of_prefix (pat s : List Char) (h : pat.isPrefixOf s = true) :
    dropFirstOcc pat s = s.drop pat.length := by
  cases s with
  | nil =>
      cases pat with
      | nil => rfl
      | cons c cs => simp [List.isPrefixOf] at h
  | cons c rest => rw [dropFirstOcc, if_pos h]

/-- Appending strings appends their character lists. -/
theorem string_toList_append (a b : String) : (a ++ b).toList = a.toList ++ b.toList := by
  cases a with
  | mk la =>
      cases b with
      | mk lb => rfl

/-- C4: the claim that a token starting with the configured prefix always
comes back with the leading prefix removed is refuted at prefix "Bearer" and
token "Bearerabc": the code only removes the first occurrence of the prefix
followed by a single space, so the token is returned unchanged while the
claim's reading strips the leading prefix, yielding "abc". -/
theorem c4_counterexample :
    stripPrefixStep "Bearer" "Bearerabc" = "Bearerabc" ∧
    stripPrefixSpec "Bearer" "Bearerabc" = "abc" ∧
    stripPrefixStep "Bearer" "Bearerabc" ≠ stripPrefixSpec "Bearer" "Bearerabc" := by
  refine ⟨by decide, by decide, by decide⟩

/-- C4 (amended): when the prefix is non-empty and the token starts with the
prefix followed by a single space, the stripping step removes that leading
prefix and space and trims remaining leading whitespace; when the token does
not start with the prefix at all, it is returned unchanged.  (A token that
starts with the prefix without a following space keeps its leading prefix.) -/
theorem c4_strip_amended (jwtHeaderValuePrefix token : String)
    (hp : jwtHeaderValuePrefix ≠ "") :
    (jsStartsWith token (jwtHeaderValuePrefix ++ " ") = true →
      stripPrefixStep jwtHeaderValuePrefix token =
        jsTrimStart (jsDropChars token (jwtHeaderValuePrefix.length + 1))) ∧
    (jsStartsWith token jwtHeaderValuePrefix = false →
      stripPrefixStep jwtHeaderValuePrefix token = token) := by
  constructor
  · intro hsw
    unfold jsStartsWith at hsw
    have hlist : (jwtHeaderValuePrefix ++ " ").toList =
        jwtHeaderValuePrefix.toList ++ [' '] := string_toList_append _ _
    have hpre : (jwtHeaderValuePrefix.toList ++ [' ']).isPrefixOf token.toList = true := by
      rw [← hlist]
      exact hsw
    have hsw1 : jsStartsWith token jwtHeaderValuePrefix = true := by
      unfold jsStartsWith
      rw [List.isPrefixOf_iff_prefix] at hpre ⊢
      exact (List.prefix_append _ _).trans hpre
    unfold stripPrefixStep
    rw [if_pos ⟨hp, hsw1⟩]
    unfold jsReplaceFirst
    rw [hlist, dropFirstOcc_of_prefix _ _ hpre]
    have hlen : (jwtHeaderValuePrefix.toList ++ [' ']).length =
        jwtHeaderValuePrefix.length + 1 := by
      rw [List.length_append]
      rfl
    rw [hlen]
    rfl
  · intro hsw
    unfold stripPrefixStep
    rw [if_neg (fun hcond => by rw [hcond.2] at hsw; exact Bool.noConfusion hsw)]

/-- C4 (witness): the amended statement evaluated at the spec's own examples,
prefix "Bearer" with tokens "Bearer abc" and "abc". -/
theorem c4_witness :
    stripPrefixStep "Bearer" "Bearer abc" =
      jsTrimStart (jsDropChars "Bearer abc" ("Bearer".length + 1)) ∧
    jsTrimStart (jsDropChars "Bearer abc" ("Bearer".length + 1)) = "abc" ∧
    stripPrefixStep "Bearer" "abc" = "abc" :=
  ⟨(c4_strip_amended "Bearer" "Bearer abc" (by decide)).1 (by decide),
   by decide,
   (c4_strip_amended "Bearer" "abc" (by decide)).2 (by decide)⟩

/-- A non-exempt run with an absent or empty extracted token is the
"Missing token" rejection. -/
theorem handleRequest_missing (cfg : Config) (w : World) (authIgnore : String → Bool)
    (req : Request) (hne : authIgnore req.url = false)
    (hmiss : extractToken cfg req = none ∨ extractToken cfg req = some "") :
    handleRequest cfg w authIgnore req =
      { actions := [RespAction.respond401 "Missing token"], fetches := 0 } := by
  unfold handleRequest
  rw [if_neg (by simp [hne])]
  rcases hmiss with h | h
  · rw [h]
  · rw [h]
    simp

/-- A non-exempt run with a non-empty extracted token is the verification of
the prefix-stripped token. -/
theorem handleRequest_some (cfg : Config) (w : World) (authIgnore : String → Bool)
    (req : Request) (tok0 : String) (hne : authIgnore req.url = false)
    (hx : extractToken cfg req = some tok0) (h0 : tok0 ≠ "") :
    handleRequest cfg w authIgnore req =
      verifyActions cfg w (stripPrefixStep cfg.jwtHeaderValuePrefix tok0) := by
  unfold handleRequest
  rw [if_neg (by simp [hne]), hx]
  simp [h0]

/-- When the token is well-formed, decodes, and its `kid` resolves to a key,
the run is the single verification with that key (after one fetch). -/
theorem verifyActions_verified (cfg : Config) (w : World) (token : String)
    (meta : TokenMeta) (kid k : String)
    (hsh : jwsShape token = true) (hdec : w.decode token = some meta)
    (hkid : meta.kid = some kid) (hkey : w.keys kid = some k) :
    verifyActions cfg w token =
      { actions := verifyWithKey cfg w token meta k, fetches := 1 } := by
  have ht0 : token ≠ "" := fun h => absurd (h ▸ hsh) (by decide)
  unfold verifyActions
  rw [if_neg ht0, if_pos hsh, hdec]
  simp [hkid, hkey, getKeyCalls, keyCallbackActions]

/-- An expired claim set makes the single verification a 401 response,
whatever the signature check says. -/
theorem verifyWithKey_expired (cfg : Config) (w : World) (token : String)
    (meta : TokenMeta) (k : String) (h : meta.expired = true) :
    ∃ e, verifyWithKey cfg w token meta k = [RespAction.respond401 ("Invalid token: " ++ e)] := by
  unfold verifyWithKey
  cases hs : w.sigOk token k with
  | false => exact ⟨"invalid signature", by simp [verifyChecks, hs]⟩
  | true => exact ⟨"jwt expired", by simp [verifyChecks, jwtVerifyOptionsOf, hs, h]⟩

/-- Every verification of a token all of whose decodes are expired starts
with a 401 rejection. -/
theorem verifyActions_expired (cfg : Config) (w : World) (token : String)
    (hexp : ∀ m, w.decode token = some m → m.expired = true) :
    firstIsRejection (verifyActions cfg w token) = true := by
  unfold verifyActions
  by_cases h0 : token = ""
  · simp [h0, firstIsRejection]
  · rw [if_neg h0]
    cases hd : (if jwsShape token then w.decode token else none) with
    | none => rfl
    | some meta =>
        have hdec : w.decode token = some meta := by
          by_cases hs : jwsShape token = true
          · rw [if_pos hs] at hd
            exact hd
          · rw [if_neg hs] at hd
            exact Option.noConfusion hd
        have hexpm : meta.expired = true := hexp meta hdec
        cases hk : meta.kid with
        | none => simp [hk, firstIsRejection]
        | some kid =>
            cases hw : w.keys kid with
            | none => simp [hk, hw, firstIsRejection, getKeyCalls, keyCallbackActions]
            | some k =>
                obtain ⟨e, he⟩ := verifyWithKey_expired cfg w token meta k hexpm
                simp [hk, hw, firstIsRejection, keyCallbackActions, getKeyCalls, he]

/-- C7: a non-exempt request whose configured token source yields no
non-empty string (extraction gives nothing or the empty string) is answered
with exactly the "Missing token" rejection and performs no key-set fetch, so
neither key resolution nor verification happens. -/
theorem c7_missing_token (cfg : Config) (w : World) (authIgnore : String → Bool)
    (req : Request) (hne : authIgnore req.url = false)
    (hmiss : extractToken cfg req = none ∨ extractToken cfg req = some "") :
    handleRequest cfg w authIgnore req =
      { actions := [RespAction.respond401 "Missing token"], fetches := 0 } :=
  handleRequest_missing cfg w authIgnore req hne hmiss

/-- C7 (witness): a request without the configured header is rejected as
missing with zero fetches. -/
theorem c7_witness :
    handleRequest cfgBase worldBase (fun _ => false)
        { url := "/rest/workflows", headers := [], cookies := [] } =
      { actions := [RespAction.respond401 "Missing token"], fetches := 0 } :=
  c7_missing_token cfgBase worldBase (fun _ => false)
    { url := "/rest/workflows", headers := [], cookies := [] } rfl (Or.inl rfl)

/-- C5: expiration enforcement is mandatory — the options always carry
`ignoreExpiration := false`, whatever the configuration — and a non-exempt
request whose token only decodes as expired is always answered with a 401
rejection as its first action, regardless of signature validity,
configuration or key situation. -/
theorem c5_expiration_mandatory (cfg : Config) (w : World)
    (authIgnore : String → Bool) (req : Request)
    (hne : authIgnore req.url = false)
    (hexp : ∀ m, w.decode (pipelineToken cfg req) = some m → m.expired = true) :
    (jwtVerifyOptionsOf cfg).ignoreExpiration = false ∧
    firstIsRejection (handleRequest cfg w authIgnore req) = true := by
  refine ⟨rfl, ?_⟩
  cases hx : extractToken cfg req with
  | none =>
      rw [handleRequest_missing cfg w authIgnore req hne (Or.inl hx)]
      rfl
  | some tok0 =>
      by_cases h0 : tok0 = ""
      · rw [handleRequest_missing cfg w authIgnore req hne (Or.inr (h0 ▸ hx))]
        rfl
      · rw [handleRequest_some cfg w authIgnore req tok0 hne hx h0]
        apply verifyActions_expired
        intro m hm
        apply hexp
        unfold pipelineToken
        rw [hx]
        simp only [h0, if_false]
        simpa using hm

/-- C5 (witness): a correctly signed but expired token is rejected. -/
theorem c5_witness :
    (jwtVerifyOptionsOf cfgBase).ignoreExpiration = false ∧
    firstIsRejection (handleRequest cfgBase worldExpired (fun _ => false) reqBase) = true :=
  c5_expiration_mandatory cfgBase worldExpired (fun _ => false) reqBase rfl
    (fun m hm => by
      have h2 : worldExpired.decode (pipelineToken cfgBase reqBase) =
          some { kid := some "kid1", expired := true, issuer := none, payload := [] } := rfl
      rw [h2] at hm
      injection hm with h3
      rw [← h3])

/-- C2: the claim of a process-wide signing-key cache is refuted — the JWKS
client (and with it the cache) is constructed inside the request handler, so
two successive requests resolving the same `kid` perform two key-set
fetches, not at most one. -/
theorem c2_counterexample :
    processFetches cfgBase worldBase (fun _ => false) [reqBase, reqBase] = 2 ∧
    ¬ processFetches cfgBase worldBase (fun _ => false) [reqBase, reqBase] ≤ 1 := by
  refine ⟨by decide, by decide⟩

/-- C2 (amended): the signing-key cache lives only as long as one request —
each run of the handler constructs a fresh JWKS client, so a single request
performs at most one key-set fetch, but nothing is cached across requests. -/
theorem c2_cache_amended (cfg : Config) (w : World) (authIgnore : String → Bool)
    (req : Request) : (handleRequest cfg w authIgnore req).fetches ≤ 1 := by
  unfold handleRequest verifyActions
  repeat' split
  all_goals first
  | exact Nat.zero_le 1
  | exact Nat.le_refl 1

/-- C3 (code bug): a failed signing-key lookup is not terminal — `getKey`
invokes the verify callback twice, first with the error and then again with
an undefined key, so a request whose `kid` is not in the key set produces
two 401 response attempts instead of one. -/
theorem c3_key_error_not_terminal :
    getKeyCalls (Except.error "Not Found") =
      [CbCall.err "Not Found", CbCall.key none] ∧
    (handleRequest cfgBase worldNoKey (fun _ => false) reqBase).actions =
      [RespAction.respond401
        "Invalid token: error in secret or public key callback: Unable to find a signing key that matches kid1",
       RespAction.respond401 "Invalid token: secret or public key must be provided"] := by
  refine ⟨rfl, by decide⟩

/-- C6: when any of the three tenant-check configuration values is unset the
tenant check returns true for every claim set, and a non-exempt request
whose token is well-formed, decodes with a resolvable `kid`, carries a valid
signature, is unexpired and matches the configured issuer is admitted
(`next()` is called) whatever its payload. -/
theorem c6_tenant_check_disabled (cfg : Config) (w : World)
    (authIgnore : String → Bool) (req : Request) (tok0 : String)
    (meta : TokenMeta) (kid k : String)
    (hcfg : cfg.jwtNamespace = "" ∨ cfg.jwtAllowedTenantKey = "" ∨ cfg.jwtAllowedTenant = "")
    (hne : authIgnore req.url = false)
    (hx : extractToken cfg req = some tok0) (h0 : tok0 ≠ "")
    (hsh : jwsShape (stripPrefixStep cfg.jwtHeaderValuePrefix tok0) = true)
    (hdec : w.decode (stripPrefixStep cfg.jwtHeaderValuePrefix tok0) = some meta)
    (hkid : meta.kid = some kid)
    (hkey : w.keys kid = some k)
    (hsig : w.sigOk (stripPrefixStep cfg.jwtHeaderValuePrefix tok0) k = true)
    (hexp : meta.expired = false)
    (hiss : ∀ iss, (jwtVerifyOptionsOf cfg).issuer = some iss → meta.issuer = some iss) :
    (∀ payload, isTenantAllowed cfg.jwtNamespace cfg.jwtAllowedTenantKey
        cfg.jwtAllowedTenant payload = some true) ∧
    (handleRequest cfg w authIgnore req).actions = [RespAction.callNext] := by
  have hten : ∀ payload, isTenantAllowed cfg.jwtNamespace cfg.jwtAllowedTenantKey
      cfg.jwtAllowedTenant payload = some true := by
    intro payload
    unfold isTenantAllowed
    rw [if_pos hcfg]
  refine ⟨hten, ?_⟩
  rw [handleRequest_some cfg w authIgnore req tok0 hne hx h0,
    verifyActions_verified cfg w _ meta kid k hsh hdec hkid hkey]
  have hvc : verifyChecks (jwtVerifyOptionsOf cfg)
      (w.sigOk (stripPrefixStep cfg.jwtHeaderValuePrefix tok0) k) meta =
      Except.ok meta.payload := by
    unfold verifyChecks
    rw [hsig]
    cases hI : (jwtVerifyOptionsOf cfg).issuer with
    | none => simp [hexp]
    | some iss => simp [hexp, hiss iss hI]
  simp [verifyWithKey, hvc, hten meta.payload]

/-- C6 (witness): with no tenant configuration, a request carrying the
well-formed, known-key, correctly signed, unexpired token is admitted. -/
theorem c6_witness :
    isTenantAllowed "" "" "" [("anything", JsonValue.num 1)] = some true ∧
    (handleRequest cfgBase worldBase (fun _ => false) reqBase).actions =
      [RespAction.callNext] := by
  have h := c6_tenant_check_disabled cfgBase worldBase (fun _ => false) reqBase
      "aaa.bbb.ccc" { kid := some "kid1", expired := false, issuer := none, payload := [] }
      "kid1" "PUBKEY" (Or.inl rfl) rfl rfl (by decide) (by decide) rfl rfl rfl rfl rfl
      (fun iss hI => Option.noConfusion hI)
  exact ⟨h.1 [("anything", JsonValue.num 1)], h.2⟩

/-- C9: with a header name configured, the token comes from that header and
the cookie jar is never consulted (the extraction result is invariant under
any change of the cookies, even when the header is absent); only with no
header name configured does the cookie supply the token. -/
theorem c9_extraction_source (cfg : Config) (req : Request) :
    (cfg.jwtAuthHeader ≠ "" →
      extractToken cfg req = req.headers.lookup cfg.jwtAuthHeader ∧
      ∀ cs, extractToken cfg { req with cookies := cs } = extractToken cfg req) ∧
    (cfg.jwtAuthHeader = "" →
      extractToken cfg req = req.cookies.lookup cfg.jwtAuthCookie) := by
  constructor
  · intro h
    constructor
    · unfold extractToken
      rw [if_pos h]
    · intro cs
      unfold extractToken
      rw [if_pos h, if_pos h]
  · intro h
    unfold extractToken
    rw [if_neg (fun hc => hc h)]

/-- C9 (witness): a request lacking the configured header yields no token
even though a cookie is present, and changing the cookies does not change
the extraction result. -/
theorem c9_witness :
    extractToken cfgBase { url := "/x", headers := [], cookies := [("c", "tok")] } = none ∧
    extractToken cfgBase { url := "/x", headers := [], cookies := [] } =
      extractToken cfgBase { url := "/x", headers := [], cookies := [("c", "tok")] } := by
  have h := (c9_extraction_source cfgBase
      { url := "/x", headers := [], cookies := [("c", "tok")] }).1 (by decide)
  refine ⟨?_, h.2 []⟩
  rw [h.1]
  rfl

/-- Characters surviving `dropFirstOcc` come from the original list. -/
theorem mem_dropFirstOcc (pat : List Char) :
    ∀ s : List Char, ∀ c ∈ dropFirstOcc pat s, c ∈ s
  | [], c, hc => by simp [dropFirstOcc] at hc
  | a :: rest, c, hc => by
      rw [dropFirstOcc] at hc
      by_cases h : pat.isPrefixOf (a :: rest) = true
      · rw [if_pos h] at hc
        exact List.mem_of_mem_drop hc
      · rw [if_neg h] at hc
        rcases List.mem_cons.mp hc with h1 | h1
        · exact h1 ▸ List.mem_cons_self a rest
        · exact List.mem_cons_of_mem a (mem_dropFirstOcc pat rest c h1)

/-- The stripping step keeps a whitespace-only token whitespace-only. -/
theorem stripPrefixStep_whitespace (pfx tok0 : String)
    (h : ∀ c ∈ tok0.toList, c.isWhitespace = true) :
    ∀ c ∈ (stripPrefixStep pfx tok0).toList, c.isWhitespace = true := by
  unfold stripPrefixStep
  split
  · intro c hc
    unfold jsTrimStart jsReplaceFirst at hc
    have hc2 : c ∈ dropFirstOcc (pfx ++ " ").toList tok0.toList :=
      (List.dropWhile_sublist Char.isWhitespace).subset hc
    exact h c (mem_dropFirstOcc _ _ c hc2)
  · exact h

/-- A string whose characters are all empty is the empty string. -/
theorem string_eq_empty_of_toList (s : String) (h : s.toList = []) : s = "" := by
  cases s with
  | mk data =>
      cases data with
      | nil => rfl
      | cons c cs => exact List.noConfusion h

/-- A nonempty whitespace-only string is not JWS-shaped. -/
theorem jwsShape_whitespace (t : String) (hne : t.toList ≠ [])
    (h : ∀ c ∈ t.toList, c.isWhitespace = true) : jwsShape t = false := by
  unfold jwsShape
  cases ht : t.toList with
  | nil => exact absurd ht hne
  | cons c rest =>
      have hcw : c.isWhitespace = true := h c (by rw [ht]; exact List.mem_cons_self c rest)
      have hbad : (base64urlChar c || decide (c = '.')) = false := by
        simp [Char.isWhitespace] at hcw
        rcases hcw with ((h1 | h1) | h1) | h1 <;> subst h1 <;> decide
      simp [List.all_cons, hbad]

/-- C10: a whitespace-only extracted token (for example a single space) is
not "Missing token" — it is a non-empty string, so it proceeds through
prefix stripping into verification, where it is rejected with an
"Invalid token: <detail>" reason instead. -/
theorem c10_whitespace_token (cfg : Config) (w : World) (authIgnore : String → Bool)
    (req : Request) (tok0 : String)
    (hne : authIgnore req.url = false)
    (hx : extractToken cfg req = some tok0)
    (h0 : tok0 ≠ "")
    (hws : ∀ c ∈ tok0.toList, c.isWhitespace = true) :
    (∃ d, (handleRequest cfg w authIgnore req).actions =
        [RespAction.respond401 ("Invalid token: " ++ d)]) ∧
    (handleRequest cfg w authIgnore req).actions ≠
      [RespAction.respond401 "Missing token"] := by
  have hmain : ∃ d, (handleRequest cfg w authIgnore req).actions =
      [RespAction.respond401 ("Invalid token: " ++ d)] := by
    rw [handleRequest_some cfg w authIgnore req tok0 hne hx h0]
    by_cases htz : stripPrefixStep cfg.jwtHeaderValuePrefix tok0 = ""
    · refine ⟨"jwt must be provided", ?_⟩
      unfold verifyActions
      rw [if_pos htz]
      rfl
    · refine ⟨"jwt malformed", ?_⟩
      have hlist : (stripPrefixStep cfg.jwtHeaderValuePrefix tok0).toList ≠ [] :=
        fun hl => htz (string_eq_empty_of_toList _ hl)
      have hshape : jwsShape (stripPrefixStep cfg.jwtHeaderValuePrefix tok0) = false :=
        jwsShape_whitespace _ hlist (stripPrefixStep_whitespace cfg.jwtHeaderValuePrefix tok0 hws)
      unfold verifyActions
      rw [if_neg htz, if_neg (by simp [hshape])]
      rfl
  obtain ⟨d, hd⟩ := hmain
  refine ⟨⟨d, hd⟩, ?_⟩
  rw [hd]
  intro heq
  injection heq with hhead htail
  injection hhead with hstr
  have hlen := congrArg String.length hstr
  rw [String.length_append] at hlen
  rw [show ("Invalid token: ").length = 15 from rfl,
    show ("Missing token").length = 13 from rfl] at hlen
  omega

/-- C10 (witness): a single-space token in the configured header leads to an
invalid-token rejection, not a missing-token one. -/
theorem c10_witness :
    (∃ d, (handleRequest cfgBase worldBase (fun _ => false)
        { url := "/x", headers := [("x-jwt", " ")], cookies := [] }).actions =
      [RespAction.respond401 ("Invalid token: " ++ d)]) ∧
    (handleRequest cfgBase worldBase (fun _ => false)
        { url := "/x", headers := [("x-jwt", " ")], cookies := [] }).actions ≠
      [RespAction.respond401 "Missing token"] :=
  c10_whitespace_token cfgBase worldBase (fun _ => false)
    { url := "/x", headers := [("x-jwt", " ")], cookies := [] } " "
    rfl rfl (by decide) (by decide)

/-- One verification with a real key either responds with a single 401,
throws the tenant `TypeError`, or admits. -/
theorem verifyWithKey_shape (cfg : Config) (w : World) (token : String)
    (meta : TokenMeta) (k : String) :
    (∃ r, verifyWithKey cfg w token meta k = [RespAction.respond401 r]) ∨
    verifyWithKey cfg w token meta k = [RespAction.threwTypeError] ∨
    verifyWithKey cfg w token meta k = [RespAction.callNext] := by
  unfold verifyWithKey
  cases hv : verifyChecks (jwtVerifyOptionsOf cfg) (w.sigOk token k) meta with
  | error e => exact Or.inl ⟨"Invalid token: " ++ e, by simp⟩
  | ok payload =>
      cases ht : isTenantAllowed cfg.jwtNamespace cfg.jwtAllowedTenantKey
          cfg.jwtAllowedTenant payload with
      | none => exact Or.inr (Or.inl (by simp [ht]))
      | some b =>
          cases b with
          | true => exact Or.inr (Or.inr (by simp [ht]))
          | false => exact Or.inl ⟨"Tenant not allowed", by simp [ht]⟩

/-- Every verification run leads with a 401 rejection, throws the tenant
`TypeError`, or admits. -/
theorem verifyActions_shape (cfg : Config) (w : World) (token : String) :
    firstIsRejection (verifyActions cfg w token) = true ∨
    (verifyActions cfg w token).actions = [RespAction.threwTypeError] ∨
    (verifyActions cfg w token).actions = [RespAction.callNext] := by
  unfold verifyActions
  by_cases h0 : token = ""
  · rw [if_pos h0]
    exact Or.inl rfl
  · rw [if_neg h0]
    cases hd : (if jwsShape token = true then w.decode token else none) with
    | none => exact Or.inl rfl
    | some meta =>
        cases hk : meta.kid with
        | none => exact Or.inl (by simp [hk, firstIsRejection])
        | some kid =>
            cases hw : w.keys kid with
            | none =>
                exact Or.inl
                  (by simp [hk, hw, firstIsRejection, getKeyCalls, keyCallbackActions])
            | some k =>
                rcases verifyWithKey_shape cfg w token meta k with ⟨r, hr⟩ | hr | hr
                · exact Or.inl
                    (by simp [hk, hw, getKeyCalls, keyCallbackActions, hr, firstIsRejection])
                · exact Or.inr (Or.inl
                    (by simp [hk, hw, getKeyCalls, keyCallbackActions, hr]))
                · exact Or.inr (Or.inr
                    (by simp [hk, hw, getKeyCalls, keyCallbackActions, hr]))

/-- C8: refuted — for a well-formed token whose header lacks a `kid`, the
middleware sends the 401 rejection and then throws the response value out of
the middleware body (line 73), so a per-request error does escape the
middleware as an exception. -/
theorem c8_counterexample :
    (handleRequest cfgBase worldNoKid (fun _ => false) reqBase).actions =
      [RespAction.respond401 "No JWT key found", RespAction.throwOut] := by
  decide

/-- C8 (amended): every failing non-exempt run answers with a 401 rejection
as its first action, except the tenant check throwing a `TypeError` on a
null-valued namespace claim; moreover the missing-`kid` path throws the
already-sent response out of the middleware, and a failed key lookup issues
a second response attempt after the first rejection. -/
theorem c8_errors_amended (cfg : Config) (w : World) (authIgnore : String → Bool)
    (req : Request)
    (hfail : (handleRequest cfg w authIgnore req).actions ≠ [RespAction.callNext]) :
    firstIsRejection (handleRequest cfg w authIgnore req) = true ∨
    (handleRequest cfg w authIgnore req).actions = [RespAction.threwTypeError] := by
  by_cases hig : authIgnore req.url = true
  · exfalso
    apply hfail
    unfold handleRequest
    rw [if_pos hig]
  · have hne : authIgnore req.url = false := by
      cases h : authIgnore req.url
      · rfl
      · exact absurd h hig
    cases hx : extractToken cfg req with
    | none =>
        left
        rw [handleRequest_missing cfg w authIgnore req hne (Or.inl hx)]
        rfl
    | some tok0 =>
        by_cases h0 : tok0 = ""
        · left
          rw [handleRequest_missing cfg w authIgnore req hne (Or.inr (h0 ▸ hx))]
          rfl
        · rw [handleRequest_some cfg w authIgnore req tok0 hne hx h0] at hfail ⊢
          rcases verifyActions_shape cfg w
              (stripPrefixStep cfg.jwtHeaderValuePrefix tok0) with hr | hr | hr
          · exact Or.inl hr
          · exact Or.inr hr
          · exact absurd hr hfail

/-- C8 (witness): the amended statement at a concrete failing request (no
token supplied). -/
theorem c8_witness :
    firstIsRejection (handleRequest cfgBase worldBase (fun _ => false)
        { url := "/x", headers := [], cookies := [] }) = true ∨
    (handleRequest cfgBase worldBase (fun _ => false)
        { url := "/x", headers := [], cookies := [] }).actions =
      [RespAction.threwTypeError] :=
  c8_errors_amended cfgBase worldBase (fun _ => false)
    { url := "/x", headers := [], cookies := [] } (by decide)
